import Mathlib

/-
  Verification of the WiTrack RSSI analysis pipeline (`analysis.py`).

  The pipeline is embedded shallowly:
    * timestamps are rationals (seconds), RSSI values are rationals (dBm);
    * a pandas DataFrame becomes a list of records;
    * `groupby("bssid")` becomes: sorted distinct keys, and per key the sublist
      of records with that key (pandas sorts group keys);
    * the trailing 10-second rolling median (offset window, `closed` defaulting
      to right-closed, `min_periods=1`) becomes, for the row at position `i` of
      a time-sorted group, the median of the rows at positions `≤ i` whose time
      lies in the half-open interval `(t_i - 10, t_i]`;
    * `np.power(10.0, e)` becomes `Real.rpow`, and `round(_, 2)` becomes
      rounding to a multiple of 1/100 with ties to even (numpy's rounding);
    * Python string comparison (used by pandas when sorting string keys and
      string-valued columns) becomes code-point-wise lexicographic comparison.
-/

/-- One cleaned observation: a row of the DataFrame produced by
`load_and_clean_data`.  `t` is `received_at` in seconds. -/
structure Obs where
  t : ℚ
  bssid : String
  ssid : String
  rssi : ℚ
  channel : Option ℚ
deriving DecidableEq, Inhabited

/-- One raw CSV record before cleaning.  A `none` field models a value that is
missing or unparseable (pandas `NaN` after `to_datetime`/`to_numeric` with
`errors="coerce"`). -/
structure RawRecord where
  timestamp_received : Option ℚ
  bssid : Option String
  ssid : Option String
  rssi : Option ℚ
  channel : Option ℚ
deriving DecidableEq, Inhabited

/-- Code-point-wise lexicographic strict comparison of char lists, as Python
compares strings. -/
def lexLtCharB : List Char → List Char → Bool
  | [], [] => false
  | [], _ :: _ => true
  | _ :: _, [] => false
  | c :: cs, d :: ds =>
    if c.toNat < d.toNat then true
    else if d.toNat < c.toNat then false
    else lexLtCharB cs ds

/-- Python's `a < b` on strings. -/
def strLtB (a b : String) : Bool := lexLtCharB a.data b.data

/-- Python's `a <= b` on strings, as the relation used when sorting
string-valued data ascending. -/
def strLe (a b : String) : Prop := strLtB b a = false

instance : DecidableRel strLe := fun a b => by unfold strLe; infer_instance

/-- The comparison `df.sort_values("t")` sorts by. -/
def obsTimeLe (a b : Obs) : Prop := a.t ≤ b.t

instance : DecidableRel obsTimeLe := fun a b => by unfold obsTimeLe; infer_instance

instance : IsTotal Obs obsTimeLe := ⟨fun a b => le_total a.t b.t⟩

instance : IsTrans Obs obsTimeLe := ⟨fun _ _ _ h1 h2 => le_trans h1 h2⟩

/-- `load_and_clean_data`: drop records with a missing `timestamp_received`,
`bssid` or `rssi`, drop records whose RSSI is outside `[-95, -20]`, substitute
the sentinel for a missing `ssid`, and sort by time (`df.sort_values("t")`);
ties keep their input order. -/
def load_and_clean (raw : List RawRecord) : List Obs :=
  (raw.filterMap (fun r =>
    match r.timestamp_received, r.bssid, r.rssi with
    | some t, some b, some v =>
        if -95 ≤ v ∧ v ≤ -20 then
          some { t := t, bssid := b, ssid := r.ssid.getD "Hidden/Unknown",
                 rssi := v, channel := r.channel }
        else none
    | _, _, _ => none)).insertionSort obsTimeLe

/-- The median of a list of rationals, as pandas computes it: sort ascending,
middle element for odd length, mean of the two middle elements for even
length.  (The empty case never arises: rolling windows with `min_periods=1`
always contain the current row.) -/
def median (l : List ℚ) : ℚ :=
  let s := l.insertionSort (· ≤ ·)
  if l.length % 2 = 1 then s.getD (l.length / 2) 0
  else (s.getD (l.length / 2 - 1) 0 + s.getD (l.length / 2) 0) / 2

/-- `df["t"].dt.floor("2S")`: the time floored to the 2-second bin. -/
def floorBin (t : ℚ) : ℚ := 2 * ((⌊t / 2⌋ : ℤ) : ℚ)

/-- A smoothed observation: an `Obs` plus the derived `t_bin` and
`rssi_smooth` columns added by `smooth_rssi_data`. -/
structure SObs extends Obs where
  t_bin : ℚ
  rssi_smooth : ℚ
deriving DecidableEq, Inhabited

/-- The RSSI values inside the trailing window of row `i` of a time-sorted
group `g`: the rows at positions `≤ i` whose time lies in `(t_i - 10, t_i]`
(for such rows the upper bound holds automatically, since `g` is sorted).
This is pandas `rolling("10S", min_periods=1)` with its default right-closed
offset window. -/
def windowVals (g : List Obs) (i : ℕ) : List ℚ :=
  ((g.take (i + 1)).filter
    (fun o => decide ((g.getD i default).t - 10 < o.t))).map (fun o => o.rssi)

/-- `smooth_group`: give every row of one device's time-sorted group its
trailing-window median and its time bin. -/
def smooth_group (g : List Obs) : List SObs :=
  (List.range g.length).map (fun i =>
    { toObs := g.getD i default
      t_bin := floorBin ((g.getD i default).t)
      rssi_smooth := median (windowVals g i) })

/-- The distinct device identifiers of a cleaned frame, sorted ascending, as
pandas `groupby("bssid")` orders its groups. -/
def keys (df : List Obs) : List String :=
  ((df.map (fun o => o.bssid)).dedup).insertionSort strLe

/-- The rows of one device, in frame order. -/
def groupOf (df : List Obs) (b : String) : List Obs :=
  df.filter (fun o => o.bssid == b)

/-- `smooth_rssi_data`: apply `smooth_group` to every device's group and
concatenate the groups (`groupby("bssid", group_keys=False).apply`). -/
def smooth_rssi_data (df : List Obs) : List SObs :=
  (keys df).flatMap (fun b => smooth_group (groupOf df b))

/-- One calibration entry of `nodes.json`; a `none` field models a missing
key (`entry.get` returning `None`). -/
structure CalEntry where
  P0 : Option ℚ
  n : Option ℚ
deriving DecidableEq, Inhabited

/-- Python truthiness of an optional number: `None` and `0.0` are falsy. -/
def truthy : Option ℚ → Bool
  | none => false
  | some x => decide (x ≠ 0)

/-- The module-level calibration load: the defaults `P0 = -55.0`, `n = 3.0`
are replaced only when `entry.get("P0") and entry.get("n")` is truthy, i.e.
when both values are present and nonzero.  `none` models an absent or
unparseable `nodes.json`. -/
def loadCalibration : Option CalEntry → ℚ × ℚ
  | none => (-55, 3)
  | some e =>
      if truthy e.P0 && truthy e.n then (e.P0.getD (-55), e.n.getD 3)
      else (-55, 3)

/-- Round a real to the nearest integer, ties to even — the rounding used by
`np.round` (via `Series.round`). -/
noncomputable def roundHalfEven (y : ℝ) : ℤ :=
  let k : ℤ := ⌊y⌋
  if y - (k : ℝ) < 1/2 then k
  else if 1/2 < y - (k : ℝ) then k + 1
  else if k % 2 = 0 then k else k + 1

/-- `.round(2)`: round a real to two decimal places (ties to even), producing
the exact centi-unit rational it denotes. -/
noncomputable def round2 (x : ℝ) : ℚ := ((roundHalfEven (100 * x) : ℤ) : ℚ) / 100

/-- The unrounded log-distance path-loss model of `calculate_distances`:
`10 ** ((P0 - rssi_smooth) / (10 * n))`. -/
noncomputable def distance_model (P0 n r : ℚ) : ℝ :=
  (10 : ℝ) ^ (((P0 : ℝ) - (r : ℝ)) / (10 * (n : ℝ)))

/-- The `distance_m` column value: the path-loss model rounded to 2 decimal
places. -/
noncomputable def distance_m (P0 n r : ℚ) : ℚ := round2 (distance_model P0 n r)

/-- A distance-augmented observation: an `SObs` plus the `distance_m` column. -/
structure DObs extends SObs where
  distance_m : ℚ
deriving DecidableEq, Inhabited

/-- `calculate_distances`: add the `distance_m` column, a pure per-row function
of `rssi_smooth` and the run's calibration. -/
noncomputable def calculate_distances (P0 n : ℚ) (df : List SObs) : List DObs :=
  df.map (fun o => { toSObs := o, distance_m := distance_m P0 n o.rssi_smooth })

/-- Minimum of a list of rationals (`Series.min`); 0 on the empty list, which
never arises (groups are nonempty). -/
def qMin : List ℚ → ℚ
  | [] => 0
  | x :: xs => xs.foldl min x

/-- Maximum of a list of rationals (`Series.max`). -/
def qMax : List ℚ → ℚ
  | [] => 0
  | x :: xs => xs.foldl max x

/-- Sum of a list of rationals. -/
def qSum : List ℚ → ℚ
  | [] => 0
  | x :: xs => x + qSum xs

/-- Mean of a list of rationals (`Series.mean`). -/
def qMean (l : List ℚ) : ℚ := qSum l / (l.length : ℚ)

/-- Number of occurrences of `s` in `l`. -/
def countOcc (l : List String) (s : String) : ℕ :=
  (l.filter (fun x => x == s)).length

/-- The highest occurrence count over the distinct values of `l`. -/
def maxCount (l : List String) : ℕ :=
  (l.dedup.map (fun s => countOcc l s)).foldl max 0

/-- The distinct values of `l` that are tied for most frequent. -/
def modeCandidates (l : List String) : List String :=
  l.dedup.filter (fun s => countOcc l s == maxCount l)

/-- `Series.mode().iloc[0]` with the `"Unknown"` fallback of the source: the
mode values sorted ascending, first one taken — i.e. the lexicographically
least most-frequent value. -/
def modeChoice (l : List String) : String :=
  ((modeCandidates l).insertionSort strLe).headD "Unknown"

/-- The proximity classification of `create_wifi_devices_table`, applied to a
device's mean distance. -/
def proximityZone (d : ℚ) : String :=
  if d < 2 then "Very Close"
  else if d < 5 then "Close"
  else if d < 10 then "Medium"
  else "Far"

/-- The signal-strength classification of `create_wifi_devices_table`, applied
to a device's mean smoothed RSSI. -/
def signalStrength (r : ℚ) : String :=
  if r > -50 then "Strong"
  else if r > -70 then "Medium"
  else "Weak"

/-- Round a rational to the nearest integer, ties to even — the rounding of
Python's fixed-point string formatting. -/
def roundHalfEvenQ (q : ℚ) : ℤ :=
  let k : ℤ := ⌊q⌋
  if q - (k : ℚ) < 1/2 then k
  else if 1/2 < q - (k : ℚ) then k + 1
  else if k % 2 = 0 then k else k + 1

/-- Python `f"{q:.2f}"`: fixed-point decimal rendering with two digits after
the point. -/
def format2 (q : ℚ) : String :=
  let c : ℤ := roundHalfEvenQ (100 * q)
  let sign := if c < 0 then "-" else ""
  let a : ℕ := c.natAbs
  let ip : ℕ := a / 100
  let fp : ℕ := a % 100
  sign ++ toString ip ++ "." ++ (if fp < 10 then "0" ++ toString fp else toString fp)

/-- One row of `wifi_devices_table.csv`.  Times and statistics are kept as the
numbers the source computes with; `Distance_Avg_m` is kept as the *formatted
string* the source stores, because the final `sort_values("Distance_Avg_m")`
compares exactly those strings. -/
structure DeviceRow where
  BSSID : String
  SSID_Device_Name : String
  First_Seen : ℚ
  Last_Seen : ℚ
  Duration_Minutes : ℚ
  Total_Packets : ℕ
  Packets_Per_Minute : ℚ
  Channels : List ℚ
  RSSI_Min_dBm : ℚ
  RSSI_Max_dBm : ℚ
  RSSI_Avg_dBm : ℚ
  Distance_Min_m : ℚ
  Distance_Max_m : ℚ
  Distance_Avg_m : String
  Proximity_Zone : String
  Signal_Strength : String
deriving DecidableEq, Inhabited

/-- The sorted distinct channels of a group
(`group["channel"].dropna().unique()` then `sorted`). -/
def channelsOf (g : List DObs) : List ℚ :=
  ((g.filterMap (fun o => o.channel)).dedup).insertionSort (· ≤ ·)

/-- The summary row `create_wifi_devices_table` builds for one device's
group. -/
def deviceRow (b : String) (g : List DObs) : DeviceRow :=
  let times := g.map (fun o => o.t)
  let first := qMin times
  let last := qMax times
  let duration := (last - first) / 60
  let smooths := g.map (fun o => o.rssi_smooth)
  let dists := g.map (fun o => o.distance_m)
  let dist_avg := qMean dists
  let rssi_avg := qMean smooths
  { BSSID := b
    SSID_Device_Name := modeChoice (g.map (fun o => o.ssid))
    First_Seen := first
    Last_Seen := last
    Duration_Minutes := duration
    Total_Packets := g.length
    Packets_Per_Minute := (g.length : ℚ) / max duration 1
    Channels := channelsOf g
    RSSI_Min_dBm := qMin smooths
    RSSI_Max_dBm := qMax smooths
    RSSI_Avg_dBm := rssi_avg
    Distance_Min_m := qMin dists
    Distance_Max_m := qMax dists
    Distance_Avg_m := format2 dist_avg
    Proximity_Zone := proximityZone dist_avg
    Signal_Strength := signalStrength rssi_avg }

/-- The distinct device identifiers of a distance-augmented frame, sorted as
pandas `groupby` orders them. -/
def dKeys (df : List DObs) : List String :=
  ((df.map (fun o => o.bssid)).dedup).insertionSort strLe

/-- The comparison `devices_df.sort_values("Distance_Avg_m")` sorts by: the
Python string order on the formatted `Distance_Avg_m` column. -/
def rowDistLe (r s : DeviceRow) : Prop := strLe r.Distance_Avg_m s.Distance_Avg_m

instance : DecidableRel rowDistLe := fun r s => by unfold rowDistLe; infer_instance

/-- `create_wifi_devices_table`: one summary row per device, then
`sort_values("Distance_Avg_m")` — an ascending sort of the *formatted string*
column. -/
def create_wifi_devices_table (df : List DObs) : List DeviceRow :=
  ((dKeys df).map (fun b => deviceRow b (df.filter (fun o => o.bssid == b)))).insertionSort
    rowDistLe

/-- The time bins of one device's group, sorted. -/
def binKeys (g : List DObs) : List ℚ :=
  ((g.map (fun o => o.t_bin)).dedup).insertionSort (· ≤ ·)

/-- `group.groupby("t_bin")["distance_m"].mean()`: the per-bin average
distance series of one device. -/
def binnedDistances (g : List DObs) : List (ℚ × ℚ) :=
  (binKeys g).map (fun tb =>
    (tb, qMean ((g.filter (fun o => o.t_bin == tb)).map (fun o => o.distance_m))))

/-- `create_distance_summary`, reduced to its per-device per-bin series (the
statistics columns derived from it are not needed by any claim). -/
def create_distance_summary (df : List DObs) : List (String × List (ℚ × ℚ)) :=
  (dKeys df).map (fun b => (b, binnedDistances (df.filter (fun o => o.bssid == b))))

/-- The batch pipeline of `main`: clean, smooth, estimate distances, build the
device table and the distance summary.

Modelled pandas behavior: when every record is dropped by cleaning, the real
script raises an uncaught `KeyError` instead of producing empty outputs —
`df.groupby("bssid").apply(...)` on the empty frame never runs `smooth_group`,
so `calculate_distances` indexes a missing `rssi_smooth` column (and
`create_wifi_devices_table` would likewise call
`sort_values("Distance_Avg_m")` on the column-less `pd.DataFrame([])`).  The
error value models that abnormal termination. -/
noncomputable def run_analysis (P0 n : ℚ) (raw : List RawRecord) :
    Except String (List DeviceRow × List (String × List (ℚ × ℚ))) :=
  let df := load_and_clean raw
  if df.isEmpty then Except.error "KeyError" else
  let ddf := calculate_distances P0 n (smooth_rssi_data df)
  Except.ok (create_wifi_devices_table ddf, create_distance_summary ddf)

/-! ### Concrete inputs used to evaluate the pipeline -/

/-- Two raw records of one device sharing the same timestamp (duplicate
`received_at`), with RSSI -30 and -90. -/
def rawDup1 : RawRecord :=
  { timestamp_received := some 0, bssid := some "aa", ssid := some "net",
    rssi := some (-30), channel := none }

/-- See `rawDup1`. -/
def rawDup2 : RawRecord :=
  { timestamp_received := some 0, bssid := some "aa", ssid := some "net",
    rssi := some (-90), channel := none }

/-- The cleaned row of `rawDup1`. -/
def obsDup1 : Obs :=
  { t := 0, bssid := "aa", ssid := "net", rssi := -30, channel := none }

/-- The cleaned row of `rawDup2`. -/
def obsDup2 : Obs :=
  { t := 0, bssid := "aa", ssid := "net", rssi := -90, channel := none }

/-- The smoothed row of `rawDup1` processed alone. -/
def sDup1 : SObs := { toObs := obsDup1, t_bin := 0, rssi_smooth := -30 }

/-- A raw record whose RSSI -10 is outside the admissible band, so cleaning
drops it. -/
def rawBad : RawRecord :=
  { timestamp_received := some 0, bssid := some "aa", ssid := some "x",
    rssi := some (-10), channel := none }

/-- One observation of a far device (with calibration `P0 = -55`, `n = 0.1`
its distance is 100.00 m). -/
def rawFar : RawRecord :=
  { timestamp_received := some 0, bssid := some "bb", ssid := some "far",
    rssi := some (-57), channel := none }

/-- First observation of a near device (distance 1.00 m under the same
calibration). -/
def rawNear1 : RawRecord :=
  { timestamp_received := some 0, bssid := some "aa", ssid := some "near",
    rssi := some (-55), channel := none }

/-- Second observation of the near device, 20 s later and outside the 10 s
window (distance 10.00 m), giving the device a mean distance of 5.50 m. -/
def rawNear2 : RawRecord :=
  { timestamp_received := some 20, bssid := some "aa", ssid := some "near",
    rssi := some (-56), channel := none }

/-- The cleaned row of `rawFar`. -/
def obsFar : Obs :=
  { t := 0, bssid := "bb", ssid := "far", rssi := -57, channel := none }

/-- The cleaned row of `rawNear1`. -/
def obsNear1 : Obs :=
  { t := 0, bssid := "aa", ssid := "near", rssi := -55, channel := none }

/-- The cleaned row of `rawNear2`. -/
def obsNear2 : Obs :=
  { t := 20, bssid := "aa", ssid := "near", rssi := -56, channel := none }

/-- The smoothed row of `obsFar` (singleton window). -/
def sFar : SObs := { toObs := obsFar, t_bin := 0, rssi_smooth := -57 }

/-- The smoothed row of `obsNear1` (singleton window). -/
def sNear1 : SObs := { toObs := obsNear1, t_bin := 0, rssi_smooth := -55 }

/-- The smoothed row of `obsNear2` (its window holds only itself: the earlier
row is 20 s old). -/
def sNear2 : SObs := { toObs := obsNear2, t_bin := 20, rssi_smooth := -56 }

/-- `sFar` with its distance column. -/
def dFar : DObs := { toSObs := sFar, distance_m := 100 }

/-- `sNear1` with its distance column. -/
def dNear1 : DObs := { toSObs := sNear1, distance_m := 1 }

/-- `sNear2` with its distance column. -/
def dNear2 : DObs := { toSObs := sNear2, distance_m := 10 }

/-- A device observation whose display name "B" arrives first. -/
def obsNameB : DObs :=
  { t := 0, bssid := "dd", ssid := "B", rssi := -55, channel := none,
    t_bin := 0, rssi_smooth := -55, distance_m := 1 }

/-- A later observation of the same device with display name "A". -/
def obsNameA : DObs :=
  { t := 1, bssid := "dd", ssid := "A", rssi := -55, channel := none,
    t_bin := 0, rssi_smooth := -55, distance_m := 1 }

/-! ### Properties of the string comparison -/

theorem lexLtCharB_irrefl : ∀ a : List Char, lexLtCharB a a = false
  | [] => rfl
  | _ :: cs => by
      unfold lexLtCharB
      simp [lexLtCharB_irrefl cs]

theorem lexLtCharB_asymm : ∀ a b : List Char,
    lexLtCharB a b = true → lexLtCharB b a = false
  | [], [], h => by simp [lexLtCharB] at h
  | [], _ :: _, _ => rfl
  | _ :: _, [], h => by simp [lexLtCharB] at h
  | c :: cs, d :: ds, h => by
      unfold lexLtCharB at h ⊢
      split_ifs at h ⊢ <;> first | rfl | omega | exact lexLtCharB_asymm cs ds h

theorem lexLtCharB_false_trans : ∀ (a b c : List Char),
    lexLtCharB b a = false → lexLtCharB c b = false → lexLtCharB c a = false
  | [], _, [], _, _ => rfl
  | [], _, _ :: _, _, _ => rfl
  | _ :: _, [], _, h1, _ => by simp [lexLtCharB] at h1
  | _ :: _, _ :: _, [], _, h2 => by simp [lexLtCharB] at h2
  | x :: xs, y :: ys, z :: zs, h1, h2 => by
      unfold lexLtCharB at h1 h2 ⊢
      split_ifs at h1 h2 ⊢ <;>
        first
          | rfl
          | omega
          | exact lexLtCharB_false_trans xs ys zs h1 h2

theorem strLe_refl (a : String) : strLe a a := lexLtCharB_irrefl a.data

instance : IsTotal String strLe := by
  constructor
  intro a b
  rcases hb : strLtB b a with _ | _
  · exact Or.inl hb
  · exact Or.inr (lexLtCharB_asymm b.data a.data hb)

instance : IsTrans String strLe := by
  constructor
  intro a b c h1 h2
  exact lexLtCharB_false_trans a.data b.data c.data h1 h2

/-! ### Properties of half-even rounding -/

theorem roundHalfEven_eq_of_lt_half (k : ℤ) (y : ℝ) (h1 : (k : ℝ) ≤ y)
    (h2 : y < (k : ℝ) + 1/2) : roundHalfEven y = k := by
  have hf : ⌊y⌋ = k := by
    rw [Int.floor_eq_iff]
    exact ⟨h1, by linarith⟩
  simp only [roundHalfEven]
  rw [hf, if_pos (by linarith : y - (k : ℝ) < 1/2)]

theorem roundHalfEven_eq_of_gt_half (k : ℤ) (y : ℝ) (h1 : (k : ℝ) + 1/2 < y)
    (h2 : y < (k : ℝ) + 1) : roundHalfEven y = k + 1 := by
  have hf : ⌊y⌋ = k := by
    rw [Int.floor_eq_iff]
    exact ⟨by linarith, by linarith⟩
  simp only [roundHalfEven]
  rw [hf, if_neg (by linarith : ¬ y - (k : ℝ) < 1/2),
    if_pos (by linarith : 1/2 < y - (k : ℝ))]

theorem roundHalfEven_intCast (k : ℤ) : roundHalfEven ((k : ℤ) : ℝ) = k :=
  roundHalfEven_eq_of_lt_half k _ (le_refl _) (by norm_num)

theorem roundHalfEven_le_floor_add_one (y : ℝ) : roundHalfEven y ≤ ⌊y⌋ + 1 := by
  simp only [roundHalfEven]
  split_ifs <;> omega

theorem floor_le_roundHalfEven (y : ℝ) : ⌊y⌋ ≤ roundHalfEven y := by
  simp only [roundHalfEven]
  split_ifs <;> omega

theorem roundHalfEven_mono {y z : ℝ} (h : y ≤ z) :
    roundHalfEven y ≤ roundHalfEven z := by
  have hf : ⌊y⌋ ≤ ⌊z⌋ := Int.floor_le_floor h
  rcases lt_or_eq_of_le hf with hlt | heq
  · calc roundHalfEven y ≤ ⌊y⌋ + 1 := roundHalfEven_le_floor_add_one y
      _ ≤ ⌊z⌋ := by omega
      _ ≤ roundHalfEven z := floor_le_roundHalfEven z
  · simp only [roundHalfEven]
    rw [← heq]
    split_ifs <;> first | omega | linarith

theorem round2_mono {x y : ℝ} (h : x ≤ y) : round2 x ≤ round2 y := by
  unfold round2
  have h1 : roundHalfEven (100 * x) ≤ roundHalfEven (100 * y) :=
    roundHalfEven_mono (by linarith)
  have h2 : ((roundHalfEven (100 * x) : ℤ) : ℚ) ≤ ((roundHalfEven (100 * y) : ℤ) : ℚ) := by
    exact_mod_cast h1
  linarith

theorem round2_intCast (k : ℤ) : round2 ((k : ℤ) : ℝ) = (k : ℚ) := by
  unfold round2
  have h : (100 : ℝ) * (k : ℝ) = ((100 * k : ℤ) : ℝ) := by push_cast; ring
  rw [h, roundHalfEven_intCast]
  push_cast
  ring

/-! ### Properties of the median -/

theorem median_singleton (x : ℚ) : median [x] = x := by
  norm_num [median, List.insertionSort, List.orderedInsert]

theorem median_mem_bounds (l : List ℚ) (a b : ℚ) (hne : l ≠ [])
    (h : ∀ x ∈ l, a ≤ x ∧ x ≤ b) : a ≤ median l ∧ median l ≤ b := by
  have hperm := @List.perm_insertionSort ℚ (· ≤ ·) _ l
  have hlen : (l.insertionSort (· ≤ ·)).length = l.length := hperm.length_eq
  have hmem : ∀ x ∈ l.insertionSort (· ≤ ·), a ≤ x ∧ x ≤ b :=
    fun x hx => h x (hperm.mem_iff.mp hx)
  have hlpos : 0 < l.length := List.length_pos.mpr hne
  simp only [median]
  by_cases hpar : l.length % 2 = 1
  · rw [if_pos hpar]
    have hidx : l.length / 2 < (l.insertionSort (· ≤ ·)).length := by rw [hlen]; omega
    rw [List.getD_eq_getElem _ 0 hidx]
    exact hmem _ (List.getElem_mem hidx)
  · rw [if_neg hpar]
    have h1 : l.length / 2 < (l.insertionSort (· ≤ ·)).length := by rw [hlen]; omega
    have h0 : l.length / 2 - 1 < (l.insertionSort (· ≤ ·)).length := by rw [hlen]; omega
    rw [List.getD_eq_getElem _ 0 h0, List.getD_eq_getElem _ 0 h1]
    have hA := hmem _ (List.getElem_mem h0)
    have hB := hmem _ (List.getElem_mem h1)
    constructor
    · linarith [hA.1, hB.1]
    · linarith [hA.2, hB.2]

theorem median_const (l : List ℚ) (r : ℚ) (hne : l ≠ [])
    (h : ∀ x ∈ l, x = r) : median l = r := by
  have := median_mem_bounds l r r hne (fun x hx => by rw [h x hx]; exact ⟨le_refl r, le_refl r⟩)
  linarith [this.1, this.2]

/-! ### Folded maxima -/

theorem le_foldl_max : ∀ (xs : List ℕ) (a : ℕ), a ≤ xs.foldl max a
  | [], _ => le_refl _
  | x :: xs, a => le_trans (le_max_left a x) (le_foldl_max xs (max a x))

theorem mem_le_foldl_max : ∀ (xs : List ℕ) (a : ℕ), ∀ x ∈ xs, x ≤ xs.foldl max a
  | y :: ys, a, x, hx => by
      rcases List.mem_cons.mp hx with rfl | hmem
      · exact le_trans (le_max_right a x) (le_foldl_max ys (max a x))
      · exact mem_le_foldl_max ys (max a y) x hmem

theorem foldl_max_attained : ∀ (xs : List ℕ) (a : ℕ),
    xs.foldl max a = a ∨ xs.foldl max a ∈ xs
  | [], _ => Or.inl rfl
  | x :: xs, a => by
      rcases foldl_max_attained xs (max a x) with heq | hmem
      · rcases max_choice a x with hc | hc
        · exact Or.inl (by rw [List.foldl_cons, heq, hc])
        · exact Or.inr (by rw [List.foldl_cons, heq, hc]; exact List.mem_cons_self x xs)
      · exact Or.inr (List.mem_cons_of_mem x hmem)

/-! ### Window and cleaning lemmas -/

theorem self_mem_windowVals (g : List Obs) (i : ℕ) (hi : i < g.length) :
    (g.getD i default).rssi ∈ windowVals g i := by
  have hgd : g.getD i default = g[i] := List.getD_eq_getElem g default hi
  have htk : i < (g.take (i + 1)).length := by
    simp [List.length_take]
    omega
  have hel : (g.take (i + 1))[i] = g[i] := @List.getElem_take _ g (i + 1) i htk
  apply List.mem_map.mpr
  refine ⟨g[i], List.mem_filter.mpr ⟨?_, ?_⟩, by rw [hgd]⟩
  · rw [← hel]
    exact List.getElem_mem htk
  · rw [hgd]
    simp only [decide_eq_true_eq]
    linarith

theorem windowVals_subset (g : List Obs) (i : ℕ) :
    ∀ x ∈ windowVals g i, ∃ o ∈ g, o.rssi = x := by
  intro x hx
  obtain ⟨o, ho, rfl⟩ := List.mem_map.mp hx
  have h1 : o ∈ g.take (i + 1) := (List.mem_filter.mp ho).1
  exact ⟨o, (List.take_sublist (i + 1) g).subset h1, rfl⟩

theorem windowVals_ne_nil (g : List Obs) (i : ℕ) (hi : i < g.length) :
    windowVals g i ≠ [] :=
  List.ne_nil_of_mem (self_mem_windowVals g i hi)

theorem mem_load_and_clean_band (raw : List RawRecord) :
    ∀ o ∈ load_and_clean raw, -95 ≤ o.rssi ∧ o.rssi ≤ -20 := by
  intro o ho
  unfold load_and_clean at ho
  have ho' := (List.perm_insertionSort obsTimeLe _).mem_iff.mp ho
  obtain ⟨r, _, hsome⟩ := List.mem_filterMap.mp ho'
  rcases r with ⟨ts, rb, rs, rv, rc⟩
  rcases ts with _ | t <;> rcases rb with _ | b <;> rcases rv with _ | v <;>
    dsimp at hsome
  all_goals try exact Option.noConfusion hsome
  split_ifs at hsome with hband
  · have : o.rssi = v := by
      have h := Option.some_injective _ hsome
      rw [← h]
    rw [this]
    exact hband

theorem load_and_clean_sorted (raw : List RawRecord) :
    List.Sorted obsTimeLe (load_and_clean raw) :=
  List.sorted_insertionSort obsTimeLe _

theorem mem_groupOf (df : List Obs) (b : String) (o : Obs) :
    o ∈ groupOf df b ↔ o ∈ df ∧ o.bssid = b := by
  unfold groupOf
  rw [List.mem_filter]
  simp

theorem groupOf_sorted (df : List Obs) (b : String)
    (h : List.Sorted obsTimeLe df) : List.Sorted obsTimeLe (groupOf df b) :=
  List.Pairwise.sublist (List.filter_sublist df) h

/-! ### Extracting one device's smoothed rows -/

theorem smooth_group_bssid (g : List Obs) (b : String)
    (hg : ∀ o ∈ g, o.bssid = b) : ∀ s ∈ smooth_group g, s.bssid = b := by
  intro s hs
  unfold smooth_group at hs
  obtain ⟨i, hi, rfl⟩ := List.mem_map.mp hs
  have hi' : i < g.length := List.mem_range.mp hi
  show (g.getD i default).bssid = b
  exact hg _ (List.getD_eq_getElem g default hi' ▸ List.getElem_mem hi')

theorem filter_flatMap_single {α : Type} (ks : List String) (f : String → List α)
    (p : α → String) (b : String) (hf : ∀ k, ∀ x ∈ f k, p x = k)
    (hnd : ks.Nodup) :
    (ks.flatMap f).filter (fun x => p x == b) = if b ∈ ks then f b else [] := by
  induction ks with
  | nil => simp
  | cons k ks ih =>
      have hnd' : ks.Nodup := (List.nodup_cons.mp hnd).2
      have hk : k ∉ ks := (List.nodup_cons.mp hnd).1
      rw [List.flatMap_cons, List.filter_append, ih hnd']
      by_cases hkb : k = b
      · subst hkb
        rw [if_neg hk, if_pos (List.mem_cons_self k ks)]
        have hself : (f k).filter (fun x => p x == k) = f k :=
          List.filter_eq_self.mpr (fun x hx => by simp [hf k x hx])
        rw [hself, List.append_nil]
      · have hnil : (f k).filter (fun x => p x == b) = [] := by
          rw [List.filter_eq_nil_iff]
          intro x hx
          simp [hf k x hx, hkb]
        rw [hnil, List.nil_append]
        by_cases hmem : b ∈ ks
        · rw [if_pos hmem, if_pos (List.mem_cons_of_mem k hmem)]
        · rw [if_neg hmem, if_neg ?_]
          intro hc
          rcases List.mem_cons.mp hc with hc | hc
          · exact hkb hc.symm
          · exact hmem hc

theorem keys_nodup (df : List Obs) : (keys df).Nodup :=
  ((List.perm_insertionSort strLe _).nodup_iff).mpr (List.nodup_dedup _)

theorem mem_keys (df : List Obs) (b : String) :
    b ∈ keys df ↔ ∃ o ∈ df, o.bssid = b := by
  unfold keys
  rw [(List.perm_insertionSort strLe _).mem_iff, List.mem_dedup, List.mem_map]

theorem groupOf_eq_nil_of_not_mem_keys (df : List Obs) (b : String)
    (hb : b ∉ keys df) : groupOf df b = [] := by
  unfold groupOf
  rw [List.filter_eq_nil_iff]
  intro o ho hbeq
  exact hb ((mem_keys df b).mpr ⟨o, ho, by simpa using hbeq⟩)

theorem smooth_filter_eq (df : List Obs) (b : String) :
    (smooth_rssi_data df).filter (fun s => s.bssid == b)
      = smooth_group (groupOf df b) := by
  unfold smooth_rssi_data
  rw [filter_flatMap_single (keys df) (fun k => smooth_group (groupOf df k))
      (fun s => s.bssid) b ?hf (keys_nodup df)]
  case hf =>
    intro k s hs
    refine smooth_group_bssid _ k (fun o ho => ?_) s hs
    simpa using (List.mem_filter.mp ho).2
  by_cases hb : b ∈ keys df
  · rw [if_pos hb]
  · rw [if_neg hb, groupOf_eq_nil_of_not_mem_keys df b hb]
    rfl

theorem smooth_group_rssi_smooth (g : List Obs) (i : ℕ) (hi : i < g.length) :
    ((smooth_group g).map (fun s => s.rssi_smooth)).getD i 0
      = median (windowVals g i) := by
  unfold smooth_group
  rw [List.map_map]
  rw [List.getD_eq_getElem _ 0 (by simpa using hi)]
  simp

theorem windowVals_zero (g : List Obs) (hg : g ≠ []) :
    windowVals g 0 = [(g.getD 0 default).rssi] := by
  obtain ⟨o, rest, rfl⟩ := List.exists_cons_of_ne_nil hg
  show (((o :: rest).take 1).filter
      (fun x => decide (o.t - 10 < x.t))).map (fun x => x.rssi) = [o.rssi]
  rw [List.take_succ_cons, List.take_zero]
  have hc : decide (o.t - 10 < o.t) = true := by
    simp only [decide_eq_true_eq]
    linarith
  simp [List.filter, hc]

theorem mem_take_le_t (g : List Obs) (i : ℕ) (hi : i < g.length)
    (hstrict : List.Pairwise (fun o1 o2 : Obs => o1.t < o2.t) g) :
    ∀ o ∈ g.take (i + 1), o.t ≤ g[i].t := by
  intro o ho
  have hts : g.take (i + 1) = g.take i ++ [g[i]] := by
    rw [List.take_succ]
    congr
    rw [List.getElem?_eq_getElem hi]
    rfl
  rw [hts] at ho
  rcases List.mem_append.mp ho with hmem | hmem
  · have hsplit : g = g.take i ++ g.drop i := (List.take_append_drop i g).symm
    have hdrop : g.drop i = g[i] :: g.drop (i + 1) := List.drop_eq_getElem_cons hi
    have hpw := hstrict
    rw [hsplit, List.pairwise_append] at hpw
    have := hpw.2.2 o hmem g[i] (by rw [hdrop]; exact List.mem_cons_self _ _)
    exact le_of_lt this
  · rw [List.mem_singleton.mp hmem]

theorem filter_interval_split (g : List Obs) (i : ℕ) (hi : i < g.length)
    (T : ℚ) (hT : T = g[i].t)
    (hstrict : List.Pairwise (fun o1 o2 : Obs => o1.t < o2.t) g) :
    (g.filter (fun o => decide (T - 10 < o.t) && decide (o.t ≤ T))).map
        (fun o => o.rssi)
      = ((g.take (i + 1)).filter (fun o => decide (T - 10 < o.t))).map
        (fun o => o.rssi) := by
  conv_lhs => rw [← List.take_append_drop (i + 1) g]
  rw [List.filter_append, List.map_append]
  have hmemtk : g[i] ∈ g.take (i + 1) := by
    have htk : i < (g.take (i + 1)).length := by
      simp [List.length_take]
      omega
    have hel : (g.take (i + 1))[i] = g[i] := @List.getElem_take _ g (i + 1) i htk
    rw [← hel]
    exact List.getElem_mem htk
  have hdropnil : (g.drop (i + 1)).filter
      (fun o => decide (T - 10 < o.t) && decide (o.t ≤ T)) = [] := by
    rw [List.filter_eq_nil_iff]
    intro o ho
    have hpw := hstrict
    rw [← List.take_append_drop (i + 1) g, List.pairwise_append] at hpw
    have hlt : g[i].t < o.t := hpw.2.2 g[i] hmemtk o ho
    simp only [Bool.and_eq_true, decide_eq_true_eq, not_and]
    intro _
    rw [hT]
    linarith
  rw [hdropnil, List.map_nil, List.append_nil]
  congr 1
  apply List.filter_congr
  intro o ho
  have hle : o.t ≤ T := by
    rw [hT]
    exact mem_take_le_t g i hi hstrict o ho
  simp [hle]

theorem windowVals_eq_interval (g : List Obs) (i : ℕ) (hi : i < g.length)
    (hstrict : List.Pairwise (fun o1 o2 : Obs => o1.t < o2.t) g) :
    windowVals g i
      = (g.filter (fun o => decide ((g.getD i default).t - 10 < o.t)
          && decide (o.t ≤ (g.getD i default).t))).map (fun o => o.rssi) := by
  have hgd : g.getD i default = g[i] := List.getD_eq_getElem g default hi
  rw [filter_interval_split g i hi ((g.getD i default).t) (by rw [hgd]) hstrict]
  rfl

/-- Claim C1 (amended): for every cleaned input and device, the row at
position `i` of the device's time-sorted group is assigned the median of the
RSSI values of the same-device rows at positions `≤ i` whose `received_at`
lies in `(t_i - 10, t_i]`; the first row's window is just its own RSSI; a
device with constant RSSI `r` has `rssi_smooth = r` everywhere; and when the
device's timestamps are strictly increasing the window coincides with the
claim's interval `(t_i - 10, t_i]` over *all* same-device rows. -/
theorem smooth_rssi_window_median (raw : List RawRecord) (b : String) (i : ℕ)
    (hi : i < (groupOf (load_and_clean raw) b).length) :
    (((smooth_rssi_data (load_and_clean raw)).filter
        (fun s => s.bssid == b)).map (fun s => s.rssi_smooth)).getD i 0
      = median (windowVals (groupOf (load_and_clean raw) b) i)
    ∧ ((((smooth_rssi_data (load_and_clean raw)).filter
        (fun s => s.bssid == b)).map (fun s => s.rssi_smooth)).getD 0 0
      = ((groupOf (load_and_clean raw) b).getD 0 default).rssi)
    ∧ (∀ r : ℚ, (∀ o ∈ groupOf (load_and_clean raw) b, o.rssi = r) →
        (((smooth_rssi_data (load_and_clean raw)).filter
          (fun s => s.bssid == b)).map (fun s => s.rssi_smooth)).getD i 0 = r)
    ∧ (List.Pairwise (fun o1 o2 : Obs => o1.t < o2.t)
        (groupOf (load_and_clean raw) b) →
        windowVals (groupOf (load_and_clean raw) b) i
          = ((groupOf (load_and_clean raw) b).filter
              (fun o => decide (((groupOf (load_and_clean raw) b).getD i default).t - 10 < o.t)
                && decide (o.t ≤ ((groupOf (load_and_clean raw) b).getD i default).t))).map
              (fun o => o.rssi)) := by
  rw [smooth_filter_eq]
  have hg : groupOf (load_and_clean raw) b ≠ [] := by
    intro h
    rw [h] at hi
    simp at hi
  refine ⟨smooth_group_rssi_smooth _ i hi, ?_, ?_, ?_⟩
  · rw [smooth_group_rssi_smooth _ 0 (List.length_pos.mpr hg),
      windowVals_zero _ hg, median_singleton]
  · intro r hr
    rw [smooth_group_rssi_smooth _ i hi]
    apply median_const _ r (windowVals_ne_nil _ i hi)
    intro x hx
    obtain ⟨o, ho, heq⟩ := windowVals_subset _ i x hx
    rw [← heq]
    exact hr o ho
  · intro hstrict
    exact windowVals_eq_interval _ i hi hstrict

/-- Claim C10: every retained observation's smoothed RSSI stays inside the
admissible band `[-95, -20]`: the trailing-window median of values that each
passed the range filter never leaves the band. -/
theorem rssi_smooth_in_band (raw : List RawRecord) (s : SObs)
    (hs : s ∈ smooth_rssi_data (load_and_clean raw)) :
    -95 ≤ s.rssi_smooth ∧ s.rssi_smooth ≤ -20 := by
  unfold smooth_rssi_data at hs
  obtain ⟨b, _, hsg⟩ := List.mem_flatMap.mp hs
  unfold smooth_group at hsg
  obtain ⟨i, hir, rfl⟩ := List.mem_map.mp hsg
  have hi : i < (groupOf (load_and_clean raw) b).length := List.mem_range.mp hir
  show -95 ≤ median (windowVals (groupOf (load_and_clean raw) b) i)
    ∧ median (windowVals (groupOf (load_and_clean raw) b) i) ≤ -20
  apply median_mem_bounds _ _ _ (windowVals_ne_nil _ i hi)
  intro x hx
  obtain ⟨o, ho, heq⟩ := windowVals_subset _ i x hx
  have hdf : o ∈ load_and_clean raw := ((mem_groupOf _ b o).mp ho).1
  rw [← heq]
  exact mem_load_and_clean_band raw o hdf

/-- Claim C2: every row of `calculate_distances` gets
`distance_m = round2(10 ^ ((P0 - rssi_smooth) / (10 * n)))`, all other fields
unchanged, as a deterministic stateless function of `rssi_smooth` and the
run's calibration only (rows with equal `rssi_smooth` get equal distances). -/
theorem calculate_distances_formula (P0 n : ℚ) (df : List SObs) (i : ℕ)
    (hi : i < df.length) :
    (calculate_distances P0 n df).length = df.length
    ∧ ((calculate_distances P0 n df).getD i default).toSObs = df.getD i default
    ∧ ((calculate_distances P0 n df).getD i default).distance_m
        = round2 ((10 : ℝ) ^ (((P0 : ℝ) - ((df.getD i default).rssi_smooth : ℝ))
            / (10 * (n : ℝ))))
    ∧ (∀ j, j < df.length →
        (df.getD j default).rssi_smooth = (df.getD i default).rssi_smooth →
        ((calculate_distances P0 n df).getD j default).distance_m
          = ((calculate_distances P0 n df).getD i default).distance_m) := by
  have hval : ∀ j, j < df.length →
      (calculate_distances P0 n df).getD j default
        = { toSObs := df.getD j default,
            distance_m := distance_m P0 n ((df.getD j default).rssi_smooth) } := by
    intro j hj
    unfold calculate_distances
    rw [List.getD_eq_getElem _ _ (by rw [List.length_map]; exact hj),
      List.getElem_map, ← List.getD_eq_getElem df default hj]
  refine ⟨by unfold calculate_distances; exact List.length_map _ _, ?_, ?_, ?_⟩
  · rw [hval i hi]
  · rw [hval i hi]
    rfl
  · intro j hj hreq
    rw [hval j hj, hval i hi]
    dsimp
    rw [hreq]

/-- Claim C3: the proximity classification of a mean distance `d` is
"Very Close" iff `d < 2`, "Close" iff `2 ≤ d < 5`, "Medium" iff
`5 ≤ d < 10`, "Far" iff `10 ≤ d` (exclusive upper bounds, first match wins);
in particular `d = 2` gives "Close" and `d = 5` gives "Medium", and the
device table applies this function to the device's mean distance. -/
theorem proximity_zone_thresholds :
    (∀ d : ℚ, (proximityZone d = "Very Close" ↔ d < 2)
      ∧ (proximityZone d = "Close" ↔ 2 ≤ d ∧ d < 5)
      ∧ (proximityZone d = "Medium" ↔ 5 ≤ d ∧ d < 10)
      ∧ (proximityZone d = "Far" ↔ 10 ≤ d))
    ∧ proximityZone 2 = "Close"
    ∧ proximityZone 5 = "Medium"
    ∧ ∀ (b : String) (g : List DObs),
        (deviceRow b g).Proximity_Zone
          = proximityZone (qMean (g.map (fun o => o.distance_m))) := by
  refine ⟨?_, by norm_num [proximityZone], by norm_num [proximityZone],
    fun b g => rfl⟩
  intro d
  unfold proximityZone
  split_ifs with h1 h2 h3
  · refine ⟨iff_of_true rfl h1, iff_of_false (by decide) ?_,
      iff_of_false (by decide) ?_, iff_of_false (by decide) ?_⟩
    · rintro ⟨ha, _⟩
      linarith
    · rintro ⟨ha, _⟩
      linarith
    · intro ha
      linarith
  · refine ⟨iff_of_false (by decide) h1, iff_of_true rfl ⟨not_lt.mp h1, h2⟩,
      iff_of_false (by decide) ?_, iff_of_false (by decide) ?_⟩
    · rintro ⟨ha, _⟩
      linarith
    · intro ha
      linarith
  · refine ⟨iff_of_false (by decide) h1, iff_of_false (by decide) ?_,
      iff_of_true rfl ⟨not_lt.mp h2, h3⟩, iff_of_false (by decide) ?_⟩
    · rintro ⟨_, ha⟩
      linarith
    · intro ha
      linarith
  · refine ⟨iff_of_false (by decide) h1, iff_of_false (by decide) ?_,
      iff_of_false (by decide) ?_, iff_of_true rfl (not_lt.mp h3)⟩
    · rintro ⟨_, ha⟩
      linarith
    · rintro ⟨_, ha⟩
      linarith

/-- Claim C4: the signal-strength classification of a mean smoothed RSSI `r`
is "Strong" iff `r > -50`, "Medium" iff `-70 < r ≤ -50`, "Weak" iff
`r ≤ -70` (first match wins); in particular `r = -55` gives "Medium", and the
device table applies this function to the device's mean smoothed RSSI. -/
theorem signal_strength_thresholds :
    (∀ r : ℚ, (signalStrength r = "Strong" ↔ -50 < r)
      ∧ (signalStrength r = "Medium" ↔ -70 < r ∧ r ≤ -50)
      ∧ (signalStrength r = "Weak" ↔ r ≤ -70))
    ∧ signalStrength (-55) = "Medium"
    ∧ ∀ (b : String) (g : List DObs),
        (deviceRow b g).Signal_Strength
          = signalStrength (qMean (g.map (fun o => o.rssi_smooth))) := by
  refine ⟨?_, by norm_num [signalStrength], fun b g => rfl⟩
  intro r
  unfold signalStrength
  split_ifs with h1 h2
  · refine ⟨iff_of_true rfl h1, iff_of_false (by decide) ?_,
      iff_of_false (by decide) ?_⟩
    · rintro ⟨_, ha⟩
      linarith
    · intro ha
      linarith
  · exact ⟨iff_of_false (by decide) h1,
      iff_of_true rfl ⟨h2, not_lt.mp h1⟩,
      iff_of_false (by decide) (fun ha => by linarith)⟩
  · exact ⟨iff_of_false (by decide) h1,
      iff_of_false (by decide) (fun ha => absurd ha.1 h2),
      iff_of_true rfl (not_lt.mp h2)⟩

/-- Claim C7 (amended): a supplied calibration replaces both defaults exactly
when it provides both parameters with nonzero values; if either parameter is
missing — or present but zero, which Python truthiness also rejects — both
defaults stay in force. -/
theorem calibration_partial_override :
    loadCalibration none = (-55, 3)
    ∧ (∀ p m : ℚ, loadCalibration (some { P0 := some p, n := some m })
        = if p ≠ 0 ∧ m ≠ 0 then (p, m) else (-55, 3))
    ∧ (∀ p : ℚ, loadCalibration (some { P0 := some p, n := none }) = (-55, 3))
    ∧ (∀ m : ℚ, loadCalibration (some { P0 := none, n := some m }) = (-55, 3))
    ∧ loadCalibration (some { P0 := none, n := none }) = (-55, 3) := by
  refine ⟨rfl, ?_, ?_, ?_, rfl⟩
  · intro p m
    by_cases hp : p = 0 <;> by_cases hm : m = 0 <;>
      simp [loadCalibration, truthy, hp, hm]
  · intro p
    simp [loadCalibration, truthy]
  · intro m
    simp [loadCalibration, truthy]

/-- Claim C8 (amended): for a fixed calibration with a positive path-loss
exponent, the unrounded model distance is strictly decreasing in the smoothed
RSSI, and the rounded `distance_m` column is weakly decreasing (rounding to
two decimals can merge nearby values, so strictness fails for `distance_m`
itself). -/
theorem distance_monotonic (P0 n r1 r2 : ℚ) (hn : 0 < n) (h : r1 < r2) :
    distance_model P0 n r2 < distance_model P0 n r1
    ∧ distance_m P0 n r2 ≤ distance_m P0 n r1 := by
  have hnR : (0 : ℝ) < (n : ℝ) := by exact_mod_cast hn
  have hrR : (r1 : ℝ) < (r2 : ℝ) := by exact_mod_cast h
  have h10n : (0 : ℝ) < 10 * (n : ℝ) := by positivity
  have hexp : ((P0 : ℝ) - (r2 : ℝ)) / (10 * (n : ℝ))
      < ((P0 : ℝ) - (r1 : ℝ)) / (10 * (n : ℝ)) := by
    apply div_lt_div_of_pos_right ?_ h10n
    linarith
  have hmodel : distance_model P0 n r2 < distance_model P0 n r1 := by
    unfold distance_model
    exact (Real.rpow_lt_rpow_left_iff (by norm_num : (1 : ℝ) < 10)).mpr hexp
  exact ⟨hmodel, round2_mono (le_of_lt hmodel)⟩

/-! ### Mode of the display names -/

theorem countOcc_pos (l : List String) (s : String) (hs : s ∈ l) :
    1 ≤ countOcc l s := by
  unfold countOcc
  have : s ∈ l.filter (fun x => x == s) := List.mem_filter.mpr ⟨hs, by simp⟩
  exact List.length_pos.mpr (List.ne_nil_of_mem this)

theorem countOcc_le_maxCount (l : List String) (s : String) (hs : s ∈ l) :
    countOcc l s ≤ maxCount l :=
  mem_le_foldl_max _ 0 (countOcc l s)
    (List.mem_map_of_mem _ (List.mem_dedup.mpr hs))

theorem maxCount_attained (l : List String) (hne : l ≠ []) :
    ∃ m ∈ l.dedup, countOcc l m = maxCount l := by
  rcases foldl_max_attained (l.dedup.map (fun s => countOcc l s)) 0 with h0 | hmem
  · exfalso
    obtain ⟨x, xs, rfl⟩ := List.exists_cons_of_ne_nil hne
    have h1 : 1 ≤ countOcc (x :: xs) x :=
      countOcc_pos _ x (List.mem_cons_self x xs)
    have h2 : countOcc (x :: xs) x ≤ maxCount (x :: xs) :=
      countOcc_le_maxCount _ x (List.mem_cons_self x xs)
    have h3 : maxCount (x :: xs) = 0 := h0
    omega
  · obtain ⟨m, hm, heq⟩ := List.mem_map.mp hmem
    exact ⟨m, hm, heq⟩

theorem modeCandidates_ne_nil (l : List String) (hne : l ≠ []) :
    modeCandidates l ≠ [] := by
  obtain ⟨m, hm, heq⟩ := maxCount_attained l hne
  exact List.ne_nil_of_mem (List.mem_filter.mpr ⟨hm, by simp [heq]⟩)

/-- Claim C9 (amended): the representative display name is a most frequent
name of the device's observations, and among the names tied for most
frequent it is the *lexicographically least* one (`Series.mode()` returns the
tied values sorted and `iloc[0]` takes the first); the device table computes
the name exactly this way from the device's observations. -/
theorem representative_name_mode (l : List String) (hne : l ≠ []) :
    modeChoice l ∈ l
    ∧ (∀ s ∈ l, countOcc l s ≤ countOcc l (modeChoice l))
    ∧ (∀ s ∈ l, countOcc l s = countOcc l (modeChoice l) →
        strLtB s (modeChoice l) = false)
    ∧ ∀ (b : String) (g : List DObs),
        (deviceRow b g).SSID_Device_Name
          = modeChoice (g.map (fun o => o.ssid)) := by
  have hcne : modeCandidates l ≠ [] := modeCandidates_ne_nil l hne
  have hperm := List.perm_insertionSort strLe (modeCandidates l)
  have hsne : (modeCandidates l).insertionSort strLe ≠ [] := by
    intro h
    apply hcne
    have hl := hperm.length_eq
    rw [h] at hl
    exact List.length_eq_zero.mp hl.symm
  obtain ⟨m0, rest, hcons⟩ := List.exists_cons_of_ne_nil hsne
  have hmc : modeChoice l = m0 := by
    unfold modeChoice
    rw [hcons]
    rfl
  have hmem_sorted : modeChoice l ∈ (modeCandidates l).insertionSort strLe := by
    rw [hmc, hcons]
    exact List.mem_cons_self _ _
  have hmemc : modeChoice l ∈ modeCandidates l := hperm.mem_iff.mp hmem_sorted
  have hmemdedup : modeChoice l ∈ l.dedup := (List.mem_filter.mp hmemc).1
  have hcount : countOcc l (modeChoice l) = maxCount l := by
    have := (List.mem_filter.mp hmemc).2
    simpa using this
  refine ⟨List.mem_dedup.mp hmemdedup, ?_, ?_, fun b g => rfl⟩
  · intro s hs
    rw [hcount]
    exact countOcc_le_maxCount l s hs
  · intro s hs heq
    have hs_cand : s ∈ modeCandidates l :=
      List.mem_filter.mpr ⟨List.mem_dedup.mpr hs, by simp [heq, hcount]⟩
    have hs_sorted : s ∈ (modeCandidates l).insertionSort strLe :=
      hperm.mem_iff.mpr hs_cand
    rw [hcons] at hs_sorted
    have hsorted := List.sorted_insertionSort strLe (modeCandidates l)
    rw [hcons] at hsorted
    rcases List.mem_cons.mp hs_sorted with rfl | hmem
    · rw [hmc]
      exact lexLtCharB_irrefl _
    · have hle := (List.sorted_cons.mp hsorted).1 s hmem
      rw [hmc]
      exact hle

/-! ### Evaluating the pipeline on the concrete inputs -/

theorem cleanDup1_eval : load_and_clean [rawDup1] = [obsDup1] := by
  norm_num [load_and_clean, rawDup1, obsDup1, List.filterMap_cons,
    List.insertionSort, List.orderedInsert, obsTimeLe]

theorem smoothDup1_eval : smooth_rssi_data (load_and_clean [rawDup1]) = [sDup1] := by
  rw [cleanDup1_eval]
  have hk : keys [obsDup1] = ["aa"] := by decide
  have hg : groupOf [obsDup1] "aa" = [obsDup1] := by
    norm_num [groupOf, obsDup1, List.filter]
  rw [smooth_rssi_data, hk, List.flatMap_cons, List.flatMap_nil,
    List.append_nil, hg, smooth_group]
  norm_num [List.range_succ, windowVals, median, obsDup1, sDup1, List.filter,
    List.getD, List.insertionSort, List.orderedInsert, floorBin]

theorem cleanDup_eval : load_and_clean [rawDup1, rawDup2] = [obsDup1, obsDup2] := by
  norm_num [load_and_clean, rawDup1, rawDup2, obsDup1, obsDup2,
    List.filterMap_cons, List.insertionSort, List.orderedInsert, obsTimeLe]

theorem smoothDup_eval :
    smooth_rssi_data (load_and_clean [rawDup1, rawDup2])
      = [sDup1, { toObs := obsDup2, t_bin := 0, rssi_smooth := -60 }] := by
  rw [cleanDup_eval]
  have hk : keys [obsDup1, obsDup2] = ["aa"] := by decide
  have hg : groupOf [obsDup1, obsDup2] "aa" = [obsDup1, obsDup2] := by
    norm_num [groupOf, obsDup1, obsDup2, List.filter]
  rw [smooth_rssi_data, hk, List.flatMap_cons, List.flatMap_nil,
    List.append_nil, hg, smooth_group]
  norm_num [List.range_succ, windowVals, median, obsDup1, obsDup2, sDup1,
    List.filter, List.getD, List.insertionSort, List.orderedInsert, floorBin]

theorem cleanFar_eval :
    load_and_clean [rawFar, rawNear1, rawNear2] = [obsFar, obsNear1, obsNear2] := by
  norm_num [load_and_clean, rawFar, rawNear1, rawNear2, obsFar, obsNear1,
    obsNear2, List.filterMap_cons, List.insertionSort, List.orderedInsert,
    obsTimeLe]

theorem smoothFar_eval :
    smooth_rssi_data (load_and_clean [rawFar, rawNear1, rawNear2])
      = [sNear1, sNear2, sFar] := by
  rw [cleanFar_eval]
  have hk : keys [obsFar, obsNear1, obsNear2] = ["aa", "bb"] := by decide
  have e1 : (("bb" : String) == "aa") = false := by decide
  have e2 : (("aa" : String) == "aa") = true := by decide
  have e3 : (("aa" : String) == "bb") = false := by decide
  have e4 : (("bb" : String) == "bb") = true := by decide
  have hga : groupOf [obsFar, obsNear1, obsNear2] "aa" = [obsNear1, obsNear2] := by
    norm_num [groupOf, obsFar, obsNear1, obsNear2, List.filter, e1, e2]
  have hgb : groupOf [obsFar, obsNear1, obsNear2] "bb" = [obsFar] := by
    norm_num [groupOf, obsFar, obsNear1, obsNear2, List.filter, e3, e4]
  rw [smooth_rssi_data, hk, List.flatMap_cons, List.flatMap_cons,
    List.flatMap_nil, List.append_nil, hga, hgb, smooth_group, smooth_group]
  norm_num [List.range_succ, windowVals, median, obsFar, obsNear1, obsNear2,
    sFar, sNear1, sNear2, List.filter, List.getD, List.insertionSort,
    List.orderedInsert, floorBin]

theorem distFar_eval1 : distance_m (-55) (1/10) (-55) = 1 := by
  unfold distance_m distance_model
  have hexp : (((-55 : ℚ) : ℝ) - ((-55 : ℚ) : ℝ)) / (10 * ((1/10 : ℚ) : ℝ)) = 0 := by
    push_cast
    norm_num
  rw [hexp, Real.rpow_zero]
  unfold round2
  rw [show (100 : ℝ) * 1 = ((100 : ℤ) : ℝ) by norm_num, roundHalfEven_intCast]
  norm_num

theorem distFar_eval2 : distance_m (-55) (1/10) (-56) = 10 := by
  unfold distance_m distance_model
  have hexp : (((-55 : ℚ) : ℝ) - ((-56 : ℚ) : ℝ)) / (10 * ((1/10 : ℚ) : ℝ)) = 1 := by
    push_cast
    norm_num
  rw [hexp, Real.rpow_one]
  unfold round2
  rw [show (100 : ℝ) * 10 = ((1000 : ℤ) : ℝ) by norm_num, roundHalfEven_intCast]
  norm_num

theorem distFar_eval3 : distance_m (-55) (1/10) (-57) = 100 := by
  unfold distance_m distance_model
  have hexp : (((-55 : ℚ) : ℝ) - ((-57 : ℚ) : ℝ)) / (10 * ((1/10 : ℚ) : ℝ)) = 2 := by
    push_cast
    norm_num
  rw [show ((2 : ℝ)) = ((2 : ℕ) : ℝ) by norm_num] at hexp
  rw [hexp, Real.rpow_natCast]
  unfold round2
  rw [show (100 : ℝ) * 10 ^ (2 : ℕ) = ((10000 : ℤ) : ℝ) by norm_num,
    roundHalfEven_intCast]
  norm_num

theorem calcFar_eval :
    calculate_distances (-55) (1/10) [sNear1, sNear2, sFar]
      = [dNear1, dNear2, dFar] := by
  unfold calculate_distances
  rw [List.map_cons, List.map_cons, List.map_cons, List.map_nil]
  have r1 : sNear1.rssi_smooth = -55 := rfl
  have r2 : sNear2.rssi_smooth = -56 := rfl
  have r3 : sFar.rssi_smooth = -57 := rfl
  rw [r1, r2, r3, distFar_eval1, distFar_eval2, distFar_eval3]
  rfl

/-- Claim C5 (code bug): with the valid supplied calibration `P0 = -55`,
`n = 0.1`, one device at mean distance 100.00 m and one at mean distance
5.50 m, the table lists the 100 m device *first*: `sort_values` on
`Distance_Avg_m` compares the formatted strings, and "100.00" < "5.50"
lexicographically, so the rows are not in ascending numeric order of mean
distance. -/
theorem table_sort_lexicographic_bug :
    loadCalibration (some { P0 := some (-55), n := some (1/10) }) = (-55, 1/10)
    ∧ (create_wifi_devices_table (calculate_distances (-55) (1/10)
        (smooth_rssi_data (load_and_clean [rawFar, rawNear1, rawNear2])))).map
        (fun r => r.BSSID) = ["bb", "aa"]
    ∧ qMean (((calculate_distances (-55) (1/10)
        (smooth_rssi_data (load_and_clean [rawFar, rawNear1, rawNear2]))).filter
        (fun o => o.bssid == "bb")).map (fun o => o.distance_m)) = 100
    ∧ qMean (((calculate_distances (-55) (1/10)
        (smooth_rssi_data (load_and_clean [rawFar, rawNear1, rawNear2]))).filter
        (fun o => o.bssid == "aa")).map (fun o => o.distance_m)) = 11/2
    ∧ (11/2 : ℚ) < 100 := by
  have hcalc : calculate_distances (-55) (1/10)
      (smooth_rssi_data (load_and_clean [rawFar, rawNear1, rawNear2]))
      = [dNear1, dNear2, dFar] := by
    rw [smoothFar_eval, calcFar_eval]
  have e1 : (("bb" : String) == "aa") = false := by decide
  have e2 : (("aa" : String) == "aa") = true := by decide
  have e3 : (("aa" : String) == "bb") = false := by decide
  have e4 : (("bb" : String) == "bb") = true := by decide
  have hfa : [dNear1, dNear2, dFar].filter (fun o => o.bssid == "aa")
      = [dNear1, dNear2] := by
    norm_num [List.filter, dNear1, dNear2, dFar, sNear1, sNear2, sFar,
      obsNear1, obsNear2, obsFar, e1, e2]
  have hfb : [dNear1, dNear2, dFar].filter (fun o => o.bssid == "bb")
      = [dFar] := by
    norm_num [List.filter, dNear1, dNear2, dFar, sNear1, sNear2, sFar,
      obsNear1, obsNear2, obsFar, e3, e4]
  have hmAA : qMean ([dNear1, dNear2].map (fun o => o.distance_m)) = 11/2 := by
    norm_num [qMean, qSum, dNear1, dNear2]
  have hmBB : qMean ([dFar].map (fun o => o.distance_m)) = 100 := by
    norm_num [qMean, qSum, dFar]
  refine ⟨by norm_num [loadCalibration, truthy], ?_, ?_, ?_, by norm_num⟩
  · rw [hcalc]
    have hk : dKeys [dNear1, dNear2, dFar] = ["aa", "bb"] := by decide
    have hAA : (deviceRow "aa" [dNear1, dNear2]).Distance_Avg_m = "5.50" := by
      show format2 (qMean ([dNear1, dNear2].map (fun o => o.distance_m))) = "5.50"
      rw [hmAA]
      have hc : roundHalfEvenQ (100 * (11/2 : ℚ)) = 550 := by
        norm_num [roundHalfEvenQ]
      simp only [format2]
      rw [hc]
      decide
    have hBB : (deviceRow "bb" [dFar]).Distance_Avg_m = "100.00" := by
      show format2 (qMean ([dFar].map (fun o => o.distance_m))) = "100.00"
      rw [hmBB]
      have hc : roundHalfEvenQ (100 * (100 : ℚ)) = 10000 := by
        norm_num [roundHalfEvenQ]
      simp only [format2]
      rw [hc]
      decide
    unfold create_wifi_devices_table
    rw [hk, List.map_cons, List.map_cons, List.map_nil, hfa, hfb,
      List.insertionSort, List.insertionSort, List.insertionSort,
      List.orderedInsert, List.orderedInsert]
    have hcmp : ¬ rowDistLe (deviceRow "aa" [dNear1, dNear2])
        (deviceRow "bb" [dFar]) := by
      unfold rowDistLe strLe
      rw [hAA, hBB]
      decide
    rw [if_neg hcmp, List.orderedInsert]
    rfl
  · rw [hcalc, hfb, hmBB]
  · rw [hcalc, hfa, hmAA]

/-- Claim C6 (code bug): an input whose only record is dropped by validation
(RSSI -10 is out of band) leaves the cleaned frame empty, and the pipeline
then terminates with a `KeyError` instead of producing an empty device table
and an empty per-bin series. -/
theorem empty_input_key_error :
    load_and_clean [rawBad] = []
    ∧ run_analysis (-55) 3 [rawBad] = Except.error "KeyError" := by
  have hclean : load_and_clean [rawBad] = [] := by
    norm_num [load_and_clean, rawBad, List.filterMap_cons, List.insertionSort]
  refine ⟨hclean, ?_⟩
  simp only [run_analysis]
  rw [hclean]
  rfl

/-- Claim C1 counterexample: two same-device observations share
`received_at = 0` with RSSI -30 and -90.  The first row's window holds only
itself, so the code assigns it `rssi_smooth = -30`, while the claim's "median
of all same-device observations with `received_at` in `(t-10, t]`" is
`median [-30, -90] = -60`. -/
theorem trailing_window_interval_cex :
    (((smooth_rssi_data (load_and_clean [rawDup1, rawDup2])).filter
        (fun s => s.bssid == "aa")).map (fun s => s.rssi_smooth)).getD 0 0 = -30
    ∧ median (((load_and_clean [rawDup1, rawDup2]).filter
        (fun o => o.bssid == "aa" && decide ((0 : ℚ) - 10 < o.t)
          && decide (o.t ≤ (0 : ℚ)))).map (fun o => o.rssi)) = -60
    ∧ ((-30 : ℚ) ≠ -60) := by
  refine ⟨?_, ?_, by norm_num⟩
  · rw [smoothDup_eval]
    norm_num [List.filter, sDup1, obsDup1, obsDup2, List.getD]
  · rw [cleanDup_eval]
    norm_num [List.filter, obsDup1, obsDup2, median, List.insertionSort,
      List.orderedInsert, List.getD]

/-- Claim C1 witness: the amended window property evaluated on a single
observation of device "aa". -/
theorem smooth_rssi_window_median_witness :
    0 < (groupOf (load_and_clean [rawDup1]) "aa").length
    ∧ ((((smooth_rssi_data (load_and_clean [rawDup1])).filter
          (fun s => s.bssid == "aa")).map (fun s => s.rssi_smooth)).getD 0 0
        = median (windowVals (groupOf (load_and_clean [rawDup1]) "aa") 0)
      ∧ ((((smooth_rssi_data (load_and_clean [rawDup1])).filter
          (fun s => s.bssid == "aa")).map (fun s => s.rssi_smooth)).getD 0 0
        = ((groupOf (load_and_clean [rawDup1]) "aa").getD 0 default).rssi)
      ∧ (∀ r : ℚ, (∀ o ∈ groupOf (load_and_clean [rawDup1]) "aa", o.rssi = r) →
          (((smooth_rssi_data (load_and_clean [rawDup1])).filter
            (fun s => s.bssid == "aa")).map (fun s => s.rssi_smooth)).getD 0 0 = r)
      ∧ (List.Pairwise (fun o1 o2 : Obs => o1.t < o2.t)
          (groupOf (load_and_clean [rawDup1]) "aa") →
          windowVals (groupOf (load_and_clean [rawDup1]) "aa") 0
            = ((groupOf (load_and_clean [rawDup1]) "aa").filter
                (fun o => decide (((groupOf (load_and_clean [rawDup1]) "aa").getD 0 default).t - 10 < o.t)
                  && decide (o.t ≤ ((groupOf (load_and_clean [rawDup1]) "aa").getD 0 default).t))).map
                (fun o => o.rssi))) := by
  have hlen : 0 < (groupOf (load_and_clean [rawDup1]) "aa").length := by
    rw [cleanDup1_eval]
    norm_num [groupOf, obsDup1, List.filter]
  exact ⟨hlen, smooth_rssi_window_median [rawDup1] "aa" 0 hlen⟩

/-- Claim C2 witness: the distance formula evaluated on a single smoothed
observation with the default calibration. -/
theorem calculate_distances_formula_witness :
    0 < [sDup1].length
    ∧ ((calculate_distances (-55) 3 [sDup1]).length = [sDup1].length
      ∧ ((calculate_distances (-55) 3 [sDup1]).getD 0 default).toSObs
          = [sDup1].getD 0 default
      ∧ ((calculate_distances (-55) 3 [sDup1]).getD 0 default).distance_m
          = round2 ((10 : ℝ) ^ ((((-55 : ℚ) : ℝ)
              - (([sDup1].getD 0 default).rssi_smooth : ℝ)) / (10 * ((3 : ℚ) : ℝ))))
      ∧ (∀ j, j < [sDup1].length →
          ([sDup1].getD j default).rssi_smooth = ([sDup1].getD 0 default).rssi_smooth →
          ((calculate_distances (-55) 3 [sDup1]).getD j default).distance_m
            = ((calculate_distances (-55) 3 [sDup1]).getD 0 default).distance_m)) :=
  ⟨by norm_num, calculate_distances_formula (-55) 3 [sDup1] 0 (by norm_num)⟩

/-- Claim C7 counterexample: a calibration that supplies both parameters, with
`P0 = 0`, is rejected — the run keeps the default `-55` instead of using the
supplied `0`. -/
theorem calibration_zero_value_cex :
    loadCalibration (some { P0 := some 0, n := some 3 }) = (-55, 3)
    ∧ ((-55 : ℚ) ≠ 0) := by
  constructor
  · simp [loadCalibration, truthy]
  · norm_num

/-- Claim C8 counterexample: `-55 < -54.99`, yet both RSSI values give the
same rounded distance 1.00 m under the default calibration, so `distance_m`
is not *strictly* decreasing. -/
theorem distance_rounding_not_strict_cex :
    ((-55 : ℚ) < -54.99)
    ∧ distance_m (-55) 3 (-54.99) = 1
    ∧ distance_m (-55) 3 (-55) = 1 := by
  refine ⟨by norm_num, ?_, ?_⟩
  · unfold distance_m distance_model
    have hexp : (((-55 : ℚ) : ℝ) - ((-54.99 : ℚ) : ℝ)) / (10 * ((3 : ℚ) : ℝ))
        = -(1/3000) := by
      push_cast
      norm_num
    rw [hexp]
    have h10 : (0 : ℝ) ≤ 10 := by norm_num
    have hu_pos : (0 : ℝ) < (10 : ℝ) ^ ((1 : ℝ)/3000) :=
      Real.rpow_pos_of_pos (by norm_num) _
    have hpow : ((10 : ℝ) ^ ((1 : ℝ)/3000)) ^ (3000 : ℕ) = 10 := by
      rw [← Real.rpow_natCast ((10 : ℝ) ^ ((1 : ℝ)/3000)) 3000,
        ← Real.rpow_mul h10]
      norm_num
    have hbern : (16 : ℝ) ≤ (1.005 : ℝ) ^ (3000 : ℕ) := by
      have hb := one_add_mul_le_pow (by norm_num : (-2 : ℝ) ≤ 0.005) 3000
      norm_num at hb
      linarith
    have hu_lt : (10 : ℝ) ^ ((1 : ℝ)/3000) < 1.005 := by
      apply lt_of_pow_lt_pow_left₀ 3000 (by norm_num : (0 : ℝ) ≤ 1.005)
      rw [hpow]
      linarith
    have hx_lt_one : (10 : ℝ) ^ (-(1/3000) : ℝ) < 1 :=
      Real.rpow_lt_one_of_one_lt_of_neg (by norm_num) (by norm_num)
    have hx_gt : (0.995 : ℝ) < (10 : ℝ) ^ (-(1/3000) : ℝ) := by
      rw [Real.rpow_neg h10]
      have h1 : ((1.005 : ℝ))⁻¹ < ((10 : ℝ) ^ ((1 : ℝ)/3000))⁻¹ :=
        inv_strictAnti₀ hu_pos hu_lt
      have h2 : (0.995 : ℝ) < (1.005 : ℝ)⁻¹ := by norm_num
      linarith
    unfold round2
    have hr : roundHalfEven (100 * (10 : ℝ) ^ (-(1/3000) : ℝ)) = 100 := by
      have h := roundHalfEven_eq_of_gt_half 99
        (100 * (10 : ℝ) ^ (-(1/3000) : ℝ))
        (by push_cast; linarith) (by push_cast; linarith)
      rw [h]
      norm_num
    rw [hr]
    norm_num
  · unfold distance_m distance_model
    have hexp0 : (((-55 : ℚ) : ℝ) - ((-55 : ℚ) : ℝ)) / (10 * ((3 : ℚ) : ℝ)) = 0 := by
      push_cast
      norm_num
    rw [hexp0, Real.rpow_zero]
    unfold round2
    rw [show (100 : ℝ) * 1 = ((100 : ℤ) : ℝ) by norm_num, roundHalfEven_intCast]
    norm_num

/-- Claim C8 witness: the monotonicity statement evaluated at the default
calibration and `r1 = -56 < r2 = -55`. -/
theorem distance_monotonic_witness :
    (0 : ℚ) < 3 ∧ (-56 : ℚ) < -55
    ∧ (distance_model (-55) 3 (-55) < distance_model (-55) 3 (-56)
      ∧ distance_m (-55) 3 (-55) ≤ distance_m (-55) 3 (-56)) :=
  ⟨by norm_num, by norm_num,
    distance_monotonic (-55) 3 (-56) (-55) (by norm_num) (by norm_num)⟩

/-- Claim C9 counterexample: a device whose names "B" (first encountered) and
"A" are tied for most frequent gets the representative name "A" — the
lexicographically least tied name, not the first-encountered one. -/
theorem mode_tie_lexicographic_cex :
    (deviceRow "dd" [obsNameB, obsNameA]).SSID_Device_Name = "A"
    ∧ ([obsNameB, obsNameA].map (fun o => o.ssid)).headD "" = "B"
    ∧ countOcc ["B", "A"] "A" = countOcc ["B", "A"] "B"
    ∧ ("A" : String) ≠ "B" := by
  refine ⟨?_, ?_, ?_, ?_⟩ <;> decide

/-- Claim C9 witness: the mode property evaluated on the one-element name
list `["x"]`. -/
theorem representative_name_mode_witness :
    ((["x"] : List String) ≠ [])
    ∧ (modeChoice ["x"] ∈ (["x"] : List String)
      ∧ (∀ s ∈ (["x"] : List String),
          countOcc ["x"] s ≤ countOcc ["x"] (modeChoice ["x"]))
      ∧ (∀ s ∈ (["x"] : List String),
          countOcc ["x"] s = countOcc ["x"] (modeChoice ["x"]) →
          strLtB s (modeChoice ["x"]) = false)
      ∧ ∀ (b : String) (g : List DObs),
          (deviceRow b g).SSID_Device_Name
            = modeChoice (g.map (fun o => o.ssid))) :=
  ⟨by decide, representative_name_mode ["x"] (by decide)⟩

/-- Claim C10 witness: the band invariant evaluated on the smoothed row of a
single observation. -/
theorem rssi_smooth_in_band_witness :
    sDup1 ∈ smooth_rssi_data (load_and_clean [rawDup1])
    ∧ (-95 ≤ sDup1.rssi_smooth ∧ sDup1.rssi_smooth ≤ -20) := by
  have hmem : sDup1 ∈ smooth_rssi_data (load_and_clean [rawDup1]) := by
    rw [smoothDup1_eval]
    exact List.mem_singleton_self sDup1
  exact ⟨hmem, rssi_smooth_in_band [rawDup1] sDup1 hmem⟩
